import Mathlib

/-!
Verification of the LAEH library (Lightweight Asynchronous Error Handling).

The development shallowly embeds the three core units of lib/laeh.js:

* `_e` — the error construction guard (laeh.js lines 28-36),
* the asynchronous try/catch wrapper built by `_x` (laeh.js lines 44-70),
  modelled by `wrapSnapshot` (the wrap-time stack capture) together with
  `xApply` (the semantics of one invocation of the returned closure) and
  `xRun` (iterated invocations threading the closure's mutable cb slot),
* the stack renderer installed by `leanStacks` (laeh.js lines 134-166),
  modelled by `prepareStackTrace`; the draft variant of the renderer that
  collapses consecutive frames of the same file and takes configurable
  separators is modelled by `prepareStackTraceP0`.

JavaScript values are embedded by the inductive `JSVal`; an Error object is
the constructor `JSVal.err` carrying its message string, its (assignable)
meta and prev properties — JavaScript's undefined stands for an absent
property — and the raw stack frames captured when the Error was constructed.
Exceptions are embedded by `Option`: a function that returns `some v` threw
the value `v`.
-/

/-- A V8 CallSite object, the per-frame interface used by the renderer:
getFileName() and getLineNumber() may be unavailable (hence `Option`),
isEval() and isNative() are flags.  A line number of 0 is falsy in
JavaScript, which matters for the expression getLineNumber() || a question
mark. -/
structure CallSite where
  getFileName : Option String
  getLineNumber : Option Nat
  isEval : Bool
  isNative : Bool
deriving Repr, DecidableEq

/-- Embedded JavaScript values.  `err message meta prev frames` is an Error
object: `message` its message string, `meta` and `prev` the properties the
library assigns (undefined when never assigned), `frames` the raw stack
captured at construction.  `func id` is an opaque callable identified by a
tag, `obj` a plain object. -/
inductive JSVal where
  | undef
  | null
  | bool (b : Bool)
  | num (n : Int)
  | str (s : String)
  | func (id : Nat)
  | obj (fields : List (String × JSVal))
  | err (message : String) (meta : JSVal) (prev : JSVal) (frames : List CallSite)
deriving Repr

/-- JavaScript truthiness: undefined, null, false, 0 and the empty string
are falsy; every object, function and non-empty primitive is truthy. -/
def truthy : JSVal → Bool
  | .undef => false
  | .null => false
  | .bool b => b
  | .num n => n != 0
  | .str s => s != ""
  | .func _ => true
  | .obj _ => true
  | .err _ _ _ _ => true

/-- The JavaScript String() coercion, for the value shapes this library
feeds to it.  A function's text is not modelled (no claim depends on it). -/
def jsString : JSVal → String
  | .undef => "undefined"
  | .null => "null"
  | .bool true => "true"
  | .bool false => "false"
  | .num n => toString n
  | .str s => s
  | .func _ => "function"
  | .obj _ => "[object Object]"
  | .err m _ _ _ => if m = "" then "Error" else "Error: " ++ m

/-- Whether a value is an Error instance (the instanceof Error test). -/
def isErr : JSVal → Bool
  | .err _ _ _ _ => true
  | _ => false

/-- Read the message property of an Error value. -/
def errMessage : JSVal → Option String
  | .err m _ _ _ => some m
  | _ => none

/-- Read the meta property of an Error value. -/
def errMeta : JSVal → Option JSVal
  | .err _ mt _ _ => some mt
  | _ => none

/-- Read the prev property of an Error value. -/
def errPrev : JSVal → Option JSVal
  | .err _ _ p _ => some p
  | _ => none

/-- laeh.js lines 30-31 and 59-60: if the value is not an Error instance,
wrap it as new Error(value); `frames` is the stack captured where that
constructor runs.  new Error(undefined) leaves the message empty. -/
def jsToError (frames : List CallSite) (v : JSVal) : JSVal :=
  match v with
  | .err m mt p f => .err m mt p f
  | .undef => .err "" .undef .undef frames
  | w => .err (jsString w) .undef .undef frames

/-- Property assignment e.meta = m on an Error; on non-objects the
assignment is silently ignored (non-strict JavaScript), but the library
only ever performs it on Errors. -/
def setMeta : JSVal → JSVal → JSVal
  | .err m _ p f, mt => .err m mt p f
  | v, _ => v

/-- Property assignment e.prev = p on an Error. -/
def setPrev : JSVal → JSVal → JSVal
  | .err m mt _ f, p => .err m mt p f
  | v, _ => v

/-- laeh.js lines 28-36, the function exported as _e: check, wrap and throw.
Returns `some e` when the call throws `e` and `none` when it is a no-op.
`frames` is the stack at the call, used when a new Error is constructed. -/
def _e (frames : List CallSite) (e meta : JSVal) : Option JSVal :=
  if truthy e then
    let e1 := jsToError frames e
    some (if truthy meta then setMeta e1 meta else e1)
  else
    none

/-- laeh.js line 45: var prev = new Error() — the stack snapshot taken at
the moment _x itself is called, with empty message and no assigned
properties; `wf` is the call stack at that moment. -/
def wrapSnapshot (wf : List CallSite) : JSVal :=
  .err "" .undef .undef wf

/-- laeh.js lines 50-51: the value the closure variable cb holds after the
resolution step of one invocation — kept when already truthy, otherwise
derived from the last argument (null when there are no arguments). -/
def resolveCb (cb0 : JSVal) (a : List JSVal) : JSVal :=
  if truthy cb0 then cb0
  else a.getLastD .null

/-- Everything observable about one invocation of the closure returned by
_x: the value left in the closure's cb variable, whether the wrapped
continuation started and whether it returned normally, the list of
completion-callback invocations (callback paired with its error argument)
performed, and the value thrown out of the wrapper itself, if any. -/
structure InvokeResult where
  newCb : JSVal
  funcRan : Bool
  funcCompleted : Bool
  cbCalls : List (JSVal × JSVal)
  thrown : Option JSVal
deriving Repr

/-- laeh.js lines 58-67, the catch block: normalize the caught value to an
Error, assign prev, then either deliver to cb or, with no callback
available, throw a fresh new Error with message missing callback. -/
def catchBlock (frames : List CallSite) (prev cb v : JSVal) :
    List (JSVal × JSVal) × Option JSVal :=
  let e := setPrev (jsToError frames v) prev
  if truthy cb then ([(cb, e)], none)
  else ([], some (.err "missing callback" .undef .undef frames))

/-- laeh.js lines 46-69: the semantics of one invocation of the closure
returned by _x.  `func` is the wrapped continuation (returning `some v`
when it throws `v`), `chk` the chk argument of _x, `prev` the wrap-time
snapshot, `frames` the stack at this invocation (used where the catch
block or _e constructs a new Error), `cb0` the current content of the
closure's cb variable and `a` the invocation arguments. -/
def xApply (func : List JSVal → Option JSVal) (chk prev : JSVal)
    (frames : List CallSite) (cb0 : JSVal) (a : List JSVal) : InvokeResult :=
  let cb := resolveCb cb0 a
  let arg0 := a.headD .undef
  if truthy chk && truthy arg0 then
    let r := catchBlock frames prev cb (jsToError frames arg0)
    ⟨cb, false, false, r.1, r.2⟩
  else
    match func a with
    | none => ⟨cb, true, true, [], none⟩
    | some v =>
      let r := catchBlock frames prev cb v
      ⟨cb, true, false, r.1, r.2⟩

/-- Iterated invocations of one and the same closure returned by _x: the
closure's cb variable persists between invocations, so each invocation
starts from the newCb left by the previous one.  Each list element pairs
the stack at that invocation with its argument list. -/
def xRun (func : List JSVal → Option JSVal) (chk prev : JSVal) :
    JSVal → List (List CallSite × List JSVal) → List InvokeResult
  | _, [] => []
  | cb, (fr, a) :: rest =>
    let r := xApply func chk prev fr cb a
    r :: xRun func chk prev r.newCb rest

/-- Replace the first occurrence of `pat` in a character list (the JS
String.replace with a non-global literal-text regexp, as built by
leanStacks from the escaped working directory).  On the empty string with
an empty pattern JS inserts the replacement once. -/
def replaceFirstCh (pat repl : List Char) : List Char → List Char
  | [] => if pat = [] then repl else []
  | c :: cs =>
    if pat.isPrefixOf (c :: cs) then repl ++ (c :: cs).drop pat.length
    else c :: replaceFirstCh pat repl cs

/-- Replace every (non-overlapping, left-to-right) occurrence of the
non-empty pattern `pat` (the JS String.replace with a global regexp; the
library only uses the literal pattern node_modules, so the empty-pattern
regexp behavior is not modelled).  The Nat argument is recursion fuel —
structural recursion on it keeps the definition kernel-computable; each
step consumes at least one character, so fuel equal to the input length
(supplied by `replaceAllCh`) never runs out and the fuel-exhausted arm is
unreachable. -/
def replaceAllFuel (pat repl : List Char) : Nat → List Char → List Char
  | _, [] => []
  | 0, s => s
  | fuel + 1, c :: cs =>
    if pat ≠ [] ∧ pat.isPrefixOf (c :: cs) then
      repl ++ replaceAllFuel pat repl fuel ((c :: cs).drop pat.length)
    else
      c :: replaceAllFuel pat repl fuel cs

/-- Replace every occurrence of `pat` in the last argument. -/
def replaceAllCh (pat repl s : List Char) : List Char :=
  replaceAllFuel pat repl s.length s

/-- String wrapper for `replaceFirstCh`. -/
def replaceFirstStr (s pat repl : String) : String :=
  ⟨replaceFirstCh pat.data repl.data s.data⟩

/-- String wrapper for `replaceAllCh`. -/
def replaceAllStr (s pat repl : String) : String :=
  ⟨replaceAllCh pat.data repl.data s.data⟩

/-- laeh.js line 142: the normalized location of a frame — getFileName()
defaulted to a question mark, the first occurrence of the working
directory rewritten to a dot, and every occurrence of node_modules
shortened to a dollar sign. -/
def normName (cwd : String) (f : CallSite) : String :=
  replaceAllStr (replaceFirstStr (f.getFileName.getD "?") cwd ".") "node_modules" "$"

/-- laeh.js lines 143-144: the test on the first character of the
normalized name — true when charAt(0) is neither a dot nor a slash
(charAt(0) of the empty string is the empty string, which differs from
both). -/
def notPathRoot (n : String) : Bool :=
  match n.data with
  | [] => true
  | c :: _ => c != '.' && c != '/'

/-- laeh.js line 144: the regexp laeh.js anchored at the end with a lazy
any-prefix — it matches exactly when the last seven characters are
l, a, e, h, then any character, then j, s. -/
def laehTailMatch (n : String) : Bool :=
  let cs := n.data
  decide (cs.length ≥ 7) &&
    (let t := cs.drop (cs.length - 7)
     t.take 4 == ['l', 'a', 'e', 'h'] && t.drop 5 == ['j', 's'])

/-- laeh.js line 144: the full condition under which a frame is skipped
when hiding is on. -/
def frameDropped (hid : Bool) (n : String) : Bool :=
  hid && (notPathRoot n || laehTailMatch n)

/-- laeh.js lines 146-147: the per-frame annotation after the opening
parenthesis — getLineNumber() defaulted to a question mark (a line number
of 0 is falsy, hence also the question mark), a star for eval frames and a
plus for native frames. -/
def lineMark (f : CallSite) : String :=
  (match f.getLineNumber with
   | some n => if n == 0 then "?" else toString n
   | none => "?")
  ++ (if f.isEval then "*" else "") ++ (if f.isNative then "+" else "")

/-- laeh.js lines 140-148: the loop body producing the list of rendered
frames — normalize the name, skip the frame when hid demands it,
otherwise push name(lineMark). -/
def leanFrames (hid : Bool) (cwd : String) (s : List CallSite) : List String :=
  s.filterMap fun f =>
    let n := normName cwd f
    if frameDropped hid n then none
    else some (n ++ "(" ++ lineMark f ++ ")")

/-- The JS Array.prototype.join: empty list gives the empty string, a
singleton gives its element, otherwise the elements interleaved with the
separator. -/
def joinSep (sep : String) : List String → String
  | [] => ""
  | [x] => x
  | x :: xs => x ++ sep ++ joinSep sep xs

/-- Quote-and-backslash escaping of a JSON string literal (the meta
payloads the claims exercise contain no other escapable characters). -/
def jsonEscape (s : String) : String :=
  String.join (s.data.map fun c =>
    if c == '\\' then "\\\\" else if c == '"' then "\\\"" else String.singleton c)

/-- Whether a value is dropped from a JSON object (JSON.stringify omits
undefined-valued and function-valued members). -/
def jsonOmitted : JSVal → Bool
  | .undef => true
  | .func _ => true
  | _ => false

mutual

/-- Models the platform JSON.stringify(value, null, gap) on the value
shapes the library feeds it: plain objects of scalars and nested objects.
`gap` empty means compact output; a non-empty `gap` produces the indented
layout, `ind` being the accumulated indentation of the enclosing value.
An Error value serializes as an empty object (its own enumerable
properties are not modelled; no claim exercises an Error-valued meta), and
the top-level undefined/function cases are unreachable behind the
renderer's truthiness-and-typeof guard. -/
def jsonVal (gap ind : String) : JSVal → String
  | .null => "null"
  | .bool true => "true"
  | .bool false => "false"
  | .num n => toString n
  | .str s => "\"" ++ jsonEscape s ++ "\""
  | .undef => "null"
  | .func _ => "null"
  | .err _ _ _ _ => "\x7b\x7d"
  | .obj fields =>
    let members := jsonMembers gap (ind ++ gap) fields
    if members.isEmpty then "\x7b\x7d"
    else if gap = "" then "\x7b" ++ joinSep "," members ++ "\x7d"
    else "\x7b\n" ++ ind ++ gap ++ joinSep (",\n" ++ ind ++ gap) members
         ++ "\n" ++ ind ++ "\x7d"

/-- The members of a JSON object, each rendered as key, colon, value (with
a space after the colon in indented mode), omitted members dropped. -/
def jsonMembers (gap ind : String) : List (String × JSVal) → List String
  | [] => []
  | (k, v) :: rest =>
    if jsonOmitted v then jsonMembers gap ind rest
    else ("\"" ++ jsonEscape k ++ "\":" ++ (if gap = "" then "" else " ")
          ++ jsonVal gap ind v) :: jsonMembers gap ind rest

end

/-- The typeof test of laeh.js line 155: typeof yields the string object
for plain objects, Error instances and null. -/
def typeofObject : JSVal → Bool
  | .obj _ => true
  | .err _ _ _ _ => true
  | .null => true
  | _ => false

/-- laeh.js lines 154-156: the serialized meta — JSON.stringify with the
configured prettyMeta for object-typed payloads, the String() coercion for
scalar payloads. -/
def metaRender (prettyMeta : String) (meta : JSVal) : String :=
  if typeofObject meta then jsonVal prettyMeta "" meta else jsString meta

/-- laeh.js lines 136-163: the prepareStackTrace closure installed by
leanStacks(hiding, prettyMeta), applied to an Error and the raw frames it
carries.  Reading the stack property of e.prev re-enters this very
function on the prev Error, hence the recursion; a truthy non-Error prev
has no stack property and concatenating it yields the text undefined.
The empty-string prettyMeta stands for an absent (falsy) prettyMeta
argument, i.e. compact meta serialization. -/
def prepareStackTrace (hid : Bool) (prettyMeta : String) (cwd : String) : JSVal → String
  | .err m meta prev frames =>
    (if m != "" then m ++ " " else "")
    ++ (if truthy meta then metaRender prettyMeta meta ++ " " else "")
    ++ joinSep " < " (leanFrames hid cwd frames)
    ++ (if isErr prev then " << " ++ prepareStackTrace hid prettyMeta cwd prev
        else if truthy prev then " << undefined" else "")
  | v => jsString v

/-- Append a string to the last element of a list, the JS statement
stack[stack.length - 1] += text (on a non-empty stack). -/
def withLastAppended : List String → String → List String
  | [], _ => []
  | [x], s => [x ++ s]
  | x :: xs, s => x :: withLastAppended xs s

/-- The draft renderer's frame loop (part_000 lines 128-140): frames are
normalized and optionally hidden as in `leanFrames`, but a frame whose
normalized name equals that of the previously kept frame is folded into
the previous group by appending a space-angle-space and its line mark;
otherwise a new group name(lineMark is opened.  The closing parentheses
are appended afterwards (part_000 lines 141-142). -/
def p0Group (hid : Bool) (cwd : String) :
    List CallSite → Option String → List String → List String
  | [], _, acc => acc
  | f :: rest, prevName, acc =>
    let n := normName cwd f
    if frameDropped hid n then p0Group hid cwd rest prevName acc
    else if prevName = some n then
      p0Group hid cwd rest (some n) (withLastAppended acc (" < " ++ lineMark f))
    else
      p0Group hid cwd rest (some n) (acc ++ [n ++ "(" ++ lineMark f])

/-- part_000 lines 122-157: the prepareStackTrace closure installed by the
draft leanStacks(hiding, prettyMeta, frameSeparator, fiberSeparator).  An
empty string models an absent (falsy) separator, defaulted to
space-angle-space resp. space-angle-angle-space; note that the message
part is followed by the frame separator before the joined groups, and
that the fold inside a group always uses the fixed space-angle-space
text. -/
def prepareStackTraceP0 (hid : Bool)
    (prettyMeta frameSeparator fiberSeparator : String) (cwd : String) : JSVal → String
  | .err m meta prev frames =>
    let fs := if frameSeparator = "" then " < " else frameSeparator
    let stack := (p0Group hid cwd frames none []).map (fun g => g ++ ")")
    (if m != "" then m ++ " " else "")
    ++ (if truthy meta then metaRender prettyMeta meta ++ " " else "")
    ++ fs ++ joinSep fs stack
    ++ (if isErr prev then
          (if fiberSeparator = "" then " << " else fiberSeparator)
          ++ prepareStackTraceP0 hid prettyMeta frameSeparator fiberSeparator cwd prev
        else if truthy prev then
          (if fiberSeparator = "" then " << " else fiberSeparator) ++ "undefined"
        else "")
  | v => jsString v

/-- A frame of the user file test.js of the README scenario, under the
working directory of the scenario. -/
def testFrame (l : Nat) : CallSite :=
  ⟨some "/app/proj/test.js", some l, false, false⟩

/-- A frame of the installed library file itself in the README scenario. -/
def laehFrame (l : Nat) : CallSite :=
  ⟨some "/app/proj/node_modules/laeh/lib/laeh.js", some l, false, false⟩

/-- The raw stack at the moment _e constructs the Error inside the wrapped
continuation: the constructor site inside laeh.js, the user code at
test.js line 7, and the wrapper's apply site inside laeh.js (the raw
trace shown in the README). -/
def raiseFrames : List CallSite := [laehFrame 31, testFrame 7, laehFrame 56]

/-- The raw stack at the moment _x is called at test.js line 5: the
snapshot construction site inside laeh.js above the user call site. -/
def wrapFrames : List CallSite := [laehFrame 45, testFrame 5]

/-- The README continuation: it calls _e with the text unexpected thing and
no metadata, so it throws the Error _e constructs at `raiseFrames`. -/
def func6 : List JSVal → Option JSVal :=
  fun _ => _e raiseFrames (.str "unexpected thing") (.undef)

/-- The metadata object of the README scenario. -/
def meta6 : JSVal := .obj [("msg", .str "x"), ("xyz", .num 123)]

/-- The README continuation with metadata attached to the raise. -/
def func6m : List JSVal → Option JSVal :=
  fun _ => _e raiseFrames (.str "unexpected thing") meta6

/-- Two consecutive frames of the same user file at lines 1 and 2, for the
frame-collapsing behavior of the draft renderer. -/
def twoSame : List CallSite :=
  [⟨some "./a.js", some 1, false, false⟩, ⟨some "./a.js", some 2, false, false⟩]

/-- A continuation that always throws the string boom. -/
def funcBoom : List JSVal → Option JSVal := fun _ => some (.str "boom")

/-! ## Theorems -/

theorem strAppendAssoc (a b c : String) : a ++ b ++ c = a ++ (b ++ c) := by
  apply String.ext
  simp [String.data_append, List.append_assoc]

theorem strAppendEmpty (a : String) : a ++ "" = a := by
  apply String.ext
  simp [String.data_append]

/-- The catch block performs at most one callback invocation. -/
theorem catchBlock_calls_le_one (fr : List CallSite) (p cb v : JSVal) :
    (catchBlock fr p cb v).1.length ≤ 1 := by
  unfold catchBlock
  split <;> simp

/-- C4: for every failure value v and metadata m, _e raises exactly when v
is non-empty (truthy); when it raises, the raised Error's message is v's
own message when v is already an Error and the String coercion of v
otherwise; and an Error passed with no metadata is rethrown as it is. -/
theorem guard_raises_iff_nonempty (v m : JSVal) (fr : List CallSite) :
    (_e fr v m).isSome = truthy v ∧
    ((_e fr v m).bind errMessage) =
      (if truthy v = true then
        some (match v with
              | .err s _ _ _ => s
              | w => jsString w)
       else none) ∧
    (∀ (s : String) (mt p : JSVal) (f : List CallSite),
      _e fr (.err s mt p f) .undef = some (.err s mt p f)) := by
  refine ⟨?_, ?_, ?_⟩
  · unfold _e
    split <;> simp_all
  · by_cases hv : truthy v = true
    · rw [if_pos hv]
      cases v with
      | undef => exact absurd hv (by simp [truthy])
      | null => exact absurd hv (by simp [truthy])
      | bool b =>
        have hb : b = true := by simpa [truthy] using hv
        subst hb
        by_cases hm : truthy m = true <;>
          simp [_e, hv, hm, jsToError, setMeta, errMessage, jsString]
      | num n =>
        by_cases hm : truthy m = true <;>
          simp [_e, hv, hm, jsToError, setMeta, errMessage, jsString]
      | str s =>
        by_cases hm : truthy m = true <;>
          simp [_e, hv, hm, jsToError, setMeta, errMessage, jsString]
      | func id =>
        by_cases hm : truthy m = true <;>
          simp [_e, hv, hm, jsToError, setMeta, errMessage, jsString]
      | obj fields =>
        by_cases hm : truthy m = true <;>
          simp [_e, hv, hm, jsToError, setMeta, errMessage, jsString]
      | err s mt p f =>
        by_cases hm : truthy m = true <;>
          simp [_e, hv, hm, jsToError, setMeta, errMessage]
    · rw [if_neg hv]
      simp [_e, hv]
  · intro s mt p f
    rfl

/-- The catch block with an available (truthy) callback delivers the
normalized, prev-linked error to that callback and throws nothing. -/
theorem catchBlock_truthy (fr : List CallSite) (p cb v : JSVal)
    (h : truthy cb = true) :
    catchBlock fr p cb v = ([(cb, setPrev (jsToError fr v) p)], none) := by
  simp [catchBlock, h]

/-- The catch block with no available callback invokes nothing and throws
the fresh missing-callback Error. -/
theorem catchBlock_falsy (fr : List CallSite) (p cb v : JSVal)
    (h : truthy cb = false) :
    catchBlock fr p cb v = ([], some (.err "missing callback" .undef .undef fr)) := by
  simp [catchBlock, h]

/-- Mutual exclusion for a single wrapper invocation: a completed
continuation means no callback invocation at all, and no invocation ever
performs more than one callback call. -/
theorem xApply_once (func : List JSVal → Option JSVal) (chk prev : JSVal)
    (fr : List CallSite) (cb0 : JSVal) (a : List JSVal) :
    ((xApply func chk prev fr cb0 a).funcCompleted = true →
      (xApply func chk prev fr cb0 a).cbCalls = []) ∧
    (xApply func chk prev fr cb0 a).cbCalls.length ≤ 1 := by
  by_cases hc : (truthy chk && truthy (a.headD .undef)) = true
  · have hx : xApply func chk prev fr cb0 a =
        ⟨resolveCb cb0 a, false, false,
          (catchBlock fr prev (resolveCb cb0 a) (jsToError fr (a.headD .undef))).1,
          (catchBlock fr prev (resolveCb cb0 a) (jsToError fr (a.headD .undef))).2⟩ := by
      simp only [xApply]
      rw [if_pos hc]
    rw [hx]
    exact ⟨fun h => by simp at h, catchBlock_calls_le_one _ _ _ _⟩
  · rcases hf : func a with _ | v
    · have hx : xApply func chk prev fr cb0 a =
          ⟨resolveCb cb0 a, true, true, [], none⟩ := by
        simp only [xApply]
        rw [if_neg hc, hf]
      rw [hx]
      simp
    · have hx : xApply func chk prev fr cb0 a =
          ⟨resolveCb cb0 a, true, false,
            (catchBlock fr prev (resolveCb cb0 a) v).1,
            (catchBlock fr prev (resolveCb cb0 a) v).2⟩ := by
        simp only [xApply]
        rw [if_neg hc, hf]
      rw [hx]
      exact ⟨fun h => by simp at h, catchBlock_calls_le_one _ _ _ _⟩

/-- C5 counterexample: with the non-empty failure value x and the empty
(falsy) metadata 0, the raised Error's meta is left undefined rather than
set to 0 — meta does not equal the supplied metadata; moreover re-raising
an Error that already carries meta 1 with new metadata 2 overwrites the
previously attached meta. -/
theorem guard_meta_counterexample :
    _e [] (.str "x") (.num 0) = some (.err "x" .undef .undef []) ∧
    errMeta (.err "x" .undef .undef []) ≠ some (.num 0) ∧
    _e [] (.err "x" (.num 1) .undef []) (.num 2) = some (.err "x" (.num 2) .undef []) := by
  refine ⟨rfl, ?_, rfl⟩
  simp [errMeta]

/-- C5 as amended: for every non-empty failure value and every non-empty
metadata m, the raised Error carries meta equal to m, and a later re-raise
of that same Error through _e with empty metadata leaves the attached meta
untouched (a re-raise with non-empty metadata overwrites it, per the
counterexample). -/
theorem guard_meta_attached (v m : JSVal) (fr : List CallSite)
    (hv : truthy v = true) (hm : truthy m = true) :
    errMeta ((_e fr v m).getD .undef) = some m ∧
    (∀ m2 : JSVal, truthy m2 = false →
      errMeta ((_e fr ((_e fr v m).getD .undef) m2).getD .undef) = some m) := by
  have h1 : _e fr v m = some (setMeta (jsToError fr v) m) := by
    simp [_e, hv, hm]
  have h2 : ∃ s p f, setMeta (jsToError fr v) m = .err s m p f := by
    cases v <;> exact ⟨_, _, _, rfl⟩
  obtain ⟨s, p, f, hef⟩ := h2
  constructor
  · rw [h1, hef]
    rfl
  · intro m2 hm2
    rw [h1, hef]
    have h3 : _e fr (JSVal.err s m p f) m2 = some (JSVal.err s m p f) := by
      unfold _e
      rw [if_pos (show truthy (JSVal.err s m p f) = true from rfl)]
      show some (if truthy m2 = true then setMeta (jsToError fr (JSVal.err s m p f)) m2
                 else jsToError fr (JSVal.err s m p f)) = _
      rw [if_neg (by simp [hm2])]
      rfl
    simp only [Option.getD_some]
    rw [h3]
    rfl

/-- Witness for `guard_meta_attached` at the failure value x with the
metadata 5. -/
theorem guard_meta_attached_witness :
    truthy (.str "x") = true ∧ truthy (.num 5) = true ∧
    errMeta ((_e [] (.str "x") (.num 5)).getD .undef) = some (.num 5) := by
  exact ⟨rfl, rfl, (guard_meta_attached (.str "x") (.num 5) [] rfl rfl).1⟩

/-- Normalization is idempotent: a value that is already the result of
normalization is an Error and passes through unchanged. -/
theorem jsToError_idem (fr fr2 : List CallSite) (v : JSVal) :
    jsToError fr (jsToError fr2 v) = jsToError fr2 v := by
  cases v <;> rfl

/-- Every callback invocation the catch block performs goes to the
resolved callback. -/
theorem catchBlock_fst_cb (fr : List CallSite) (p cb v : JSVal) :
    ∀ q ∈ (catchBlock fr p cb v).1, q.1 = cb := by
  by_cases h : truthy cb = true
  · rw [catchBlock_truthy _ _ _ _ h]
    simp
  · rw [catchBlock_falsy _ _ _ _ (by simpa using h)]
    simp

/-- The wrapper invocation leaves the resolved callback in the closure's
cb variable, whatever path it takes. -/
theorem xApply_newCb (func : List JSVal → Option JSVal) (chk prev : JSVal)
    (fr : List CallSite) (cb0 : JSVal) (a : List JSVal) :
    (xApply func chk prev fr cb0 a).newCb = resolveCb cb0 a := by
  by_cases hc : (truthy chk && truthy (a.headD .undef)) = true
  · simp only [xApply]
    rw [if_pos hc]
  · rcases hf : func a with _ | v
    · simp only [xApply]
      rw [if_neg hc, hf]
    · simp only [xApply]
      rw [if_neg hc, hf]

/-- The callback invocations of a wrapper invocation are either none or
those of the catch block run with the resolved callback. -/
theorem xApply_cbCalls_sub (func : List JSVal → Option JSVal) (chk prev : JSVal)
    (fr : List CallSite) (cb0 : JSVal) (a : List JSVal) :
    (xApply func chk prev fr cb0 a).cbCalls = [] ∨
    ∃ v, (xApply func chk prev fr cb0 a).cbCalls
      = (catchBlock fr prev (resolveCb cb0 a) v).1 := by
  by_cases hc : (truthy chk && truthy (a.headD .undef)) = true
  · right
    refine ⟨jsToError fr (a.headD .undef), ?_⟩
    simp only [xApply]
    rw [if_pos hc]
  · rcases hf : func a with _ | v
    · left
      simp only [xApply]
      rw [if_neg hc, hf]
    · right
      refine ⟨v, ?_⟩
      simp only [xApply]
      rw [if_neg hc, hf]

/-- Every callback invocation a wrapper invocation performs goes to the
resolved callback. -/
theorem xApply_calls_cb (func : List JSVal → Option JSVal) (chk prev : JSVal)
    (fr : List CallSite) (cb0 : JSVal) (a : List JSVal) :
    ∀ p ∈ (xApply func chk prev fr cb0 a).cbCalls, p.1 = resolveCb cb0 a := by
  intro p hp
  rcases xApply_cbCalls_sub func chk prev fr cb0 a with h0 | ⟨v, hv⟩
  · rw [h0] at hp
    cases hp
  · rw [hv] at hp
    exact catchBlock_fst_cb _ _ _ _ p hp

/-- C1: when a wrapper built with a bound (truthy) completion callback is
invoked and its continuation throws synchronously (and the first-argument
check does not preempt it), exactly one callback invocation happens — to
the bound callback, with an Error whose prev property is the snapshot
captured when _x was called (the snapshot is a parameter of construction
and does not depend on the invocation-time stack `fr`) — nothing escapes
the wrapper, the continuation did not complete, and in general every
invocation either completes the continuation with no callback invocation
or performs at most one callback invocation, never both. -/
theorem x_throw_delivers_once
    (func : List JSVal → Option JSVal) (chk : JSVal) (wf fr : List CallSite)
    (cb0 : JSVal) (a : List JSVal) (v : JSVal)
    (hcb : truthy cb0 = true)
    (hthrow : func a = some v)
    (hchk : (truthy chk && truthy (a.headD .undef)) = false) :
    (xApply func chk (wrapSnapshot wf) fr cb0 a).cbCalls
      = [(cb0, setPrev (jsToError fr v) (wrapSnapshot wf))] ∧
    errPrev (setPrev (jsToError fr v) (wrapSnapshot wf)) = some (wrapSnapshot wf) ∧
    (xApply func chk (wrapSnapshot wf) fr cb0 a).thrown = none ∧
    (xApply func chk (wrapSnapshot wf) fr cb0 a).funcCompleted = false ∧
    (∀ (g : List JSVal → Option JSVal) (c cb1 : JSVal) (fr1 : List CallSite)
        (a1 : List JSVal),
      ((xApply g c (wrapSnapshot wf) fr1 cb1 a1).funcCompleted = true →
        (xApply g c (wrapSnapshot wf) fr1 cb1 a1).cbCalls = []) ∧
      (xApply g c (wrapSnapshot wf) fr1 cb1 a1).cbCalls.length ≤ 1) := by
  have hcn : ¬ ((truthy chk && truthy (a.headD .undef)) = true) := by
    simp only [hchk]
    exact Bool.false_ne_true
  have hres : resolveCb cb0 a = cb0 := by
    simp [resolveCb, hcb]
  have hx : xApply func chk (wrapSnapshot wf) fr cb0 a =
      ⟨cb0, true, false,
        (catchBlock fr (wrapSnapshot wf) cb0 v).1,
        (catchBlock fr (wrapSnapshot wf) cb0 v).2⟩ := by
    simp only [xApply]
    rw [if_neg hcn, hthrow, hres]
  rw [hx, catchBlock_truthy _ _ _ _ hcb]
  refine ⟨rfl, ?_, rfl, rfl, ?_⟩
  · cases v <;> rfl
  · intro g c cb1 fr1 a1
    exact xApply_once g c (wrapSnapshot wf) fr1 cb1 a1

/-- Witness for `x_throw_delivers_once`: a continuation that throws the
string boom, wrapped with the bound callback func 1, invoked with no
arguments. -/
theorem x_throw_delivers_once_witness :
    truthy (.func 1) = true ∧
    funcBoom [] = some (.str "boom") ∧
    (truthy JSVal.undef && truthy (([] : List JSVal).headD .undef)) = false ∧
    (xApply funcBoom .undef (wrapSnapshot []) [] (.func 1) []).cbCalls
      = [(.func 1, setPrev (jsToError [] (.str "boom")) (wrapSnapshot []))] :=
  ⟨rfl, rfl, rfl,
    (x_throw_delivers_once funcBoom .undef [] [] (.func 1) [] (.str "boom")
      rfl rfl rfl).1⟩

/-- C2: a wrapper built with no completion callback, invoked with zero
arguments, whose continuation throws, invokes no callback at all and
itself throws the fresh missing-callback Error — an Error distinct from
the continuation's normalized failure (the latter carries the wrap-time
snapshot as prev, the former carries none). -/
theorem x_missing_callback
    (func : List JSVal → Option JSVal) (chk : JSVal) (wf fr : List CallSite)
    (v : JSVal) (hthrow : func [] = some v) :
    (xApply func chk (wrapSnapshot wf) fr .undef []).cbCalls = [] ∧
    (xApply func chk (wrapSnapshot wf) fr .undef []).thrown
      = some (.err "missing callback" .undef .undef fr) ∧
    (xApply func chk (wrapSnapshot wf) fr .undef []).funcRan = true ∧
    some (JSVal.err "missing callback" .undef .undef fr)
      ≠ some (setPrev (jsToError fr v) (wrapSnapshot wf)) := by
  have hcn : ¬ ((truthy chk && truthy (([] : List JSVal).headD .undef)) = true) := by
    simp [truthy]
  have hx : xApply func chk (wrapSnapshot wf) fr .undef [] =
      ⟨.null, true, false,
        (catchBlock fr (wrapSnapshot wf) .null v).1,
        (catchBlock fr (wrapSnapshot wf) .null v).2⟩ := by
    simp only [xApply]
    rw [if_neg hcn, hthrow]
    rfl
  rw [hx, catchBlock_falsy fr (wrapSnapshot wf) .null v rfl]
  refine ⟨rfl, rfl, rfl, ?_⟩
  cases v <;> simp [setPrev, jsToError, wrapSnapshot]

/-- Witness for `x_missing_callback` at the boom continuation. -/
theorem x_missing_callback_witness :
    funcBoom [] = some (.str "boom") ∧
    (xApply funcBoom .undef (wrapSnapshot []) [] .undef []).thrown
      = some (.err "missing callback" .undef .undef []) :=
  ⟨rfl, (x_missing_callback funcBoom .undef [] [] (.str "boom") rfl).2.1⟩

/-- C3: with chk set and a non-empty first argument, the wrapped
continuation never starts, and when the resolved completion callback is
available it is invoked with the Error normalized from that first
argument, prev-linked to the wrap-time snapshot. -/
theorem x_chk_preempts
    (func : List JSVal → Option JSVal) (chk : JSVal) (wf fr : List CallSite)
    (cb0 : JSVal) (a : List JSVal)
    (hchk : truthy chk = true) (harg : truthy (a.headD .undef) = true) :
    (xApply func chk (wrapSnapshot wf) fr cb0 a).funcRan = false ∧
    (truthy (resolveCb cb0 a) = true →
      (xApply func chk (wrapSnapshot wf) fr cb0 a).cbCalls
        = [(resolveCb cb0 a,
            setPrev (jsToError fr (a.headD .undef)) (wrapSnapshot wf))]) := by
  have hc : (truthy chk && truthy (a.headD .undef)) = true := by
    rw [hchk, harg]
    rfl
  have hx : xApply func chk (wrapSnapshot wf) fr cb0 a =
      ⟨resolveCb cb0 a, false, false,
        (catchBlock fr (wrapSnapshot wf) (resolveCb cb0 a)
          (jsToError fr (a.headD .undef))).1,
        (catchBlock fr (wrapSnapshot wf) (resolveCb cb0 a)
          (jsToError fr (a.headD .undef))).2⟩ := by
    simp only [xApply]
    rw [if_pos hc]
  refine ⟨by rw [hx], ?_⟩
  intro h
  rw [hx, catchBlock_truthy _ _ _ _ h, jsToError_idem]

/-- Witness for `x_chk_preempts`: chk true, first argument the non-empty
string E, callback derived from the last argument. -/
theorem x_chk_preempts_witness :
    truthy (.bool true) = true ∧
    truthy (([JSVal.str "E", JSVal.func 2]).headD .undef) = true ∧
    (xApply funcBoom (.bool true) (wrapSnapshot []) [] .undef
      [.str "E", .func 2]).funcRan = false :=
  ⟨rfl, rfl,
    (x_chk_preempts funcBoom (.bool true) [] [] .undef [.str "E", .func 2]
      rfl rfl).1⟩

/-- C10 counterexample: a wrapper with no bound callback, invoked first
with no arguments — the stored callback becomes null and the wrapper
throws the missing-callback Error — and then invoked again with the
callable func 7 as its only argument.  If the claim held, the second
invocation would reuse the first-derived callback (null) and again invoke
nothing; instead the second invocation derives anew, stores func 7 and
performs one callback invocation: derivation happened again on the second
invocation. -/
theorem cb_rederived_counterexample :
    (xRun funcBoom .undef (wrapSnapshot []) .undef
        [([], []), ([], [.func 7])]).map
        (fun r => (r.newCb, r.cbCalls.length, r.thrown.isSome))
      = [(.null, 0, true), (.func 7, 1, false)] := by
  rfl

/-- C10 as amended: an invocation that finds the stored callback non-empty
keeps it and directs every callback invocation to it, regardless of the
invocation's arguments; an invocation that finds the stored callback
empty derives it afresh from that invocation's own last argument — so
derivation recurs on every invocation until a non-empty callback has been
stored, and happens no more afterwards. -/
theorem cb_derivation_policy
    (func : List JSVal → Option JSVal) (chk : JSVal) (wf fr : List CallSite)
    (cb0 : JSVal) (a : List JSVal) (h : truthy cb0 = true) :
    (xApply func chk (wrapSnapshot wf) fr cb0 a).newCb = cb0 ∧
    (∀ p ∈ (xApply func chk (wrapSnapshot wf) fr cb0 a).cbCalls, p.1 = cb0) ∧
    (∀ cb1 : JSVal, truthy cb1 = false →
      (xApply func chk (wrapSnapshot wf) fr cb1 a).newCb = a.getLastD .null) := by
  refine ⟨?_, ?_, ?_⟩
  · rw [xApply_newCb]
    simp [resolveCb, h]
  · intro p hp
    have hcb := xApply_calls_cb func chk (wrapSnapshot wf) fr cb0 a p hp
    rw [hcb]
    simp [resolveCb, h]
  · intro cb1 h1
    rw [xApply_newCb]
    simp [resolveCb, h1]

/-- Witness for `cb_derivation_policy` with the bound callback func 3. -/
theorem cb_derivation_policy_witness :
    truthy (.func 3) = true ∧
    (xApply funcBoom .undef (wrapSnapshot []) [] (.func 3) [.func 9]).newCb
      = .func 3 :=
  ⟨rfl, (cb_derivation_policy funcBoom .undef [] [] (.func 3) [.func 9] rfl).1⟩

/-- A frame survives the filter when hiding is off. -/
theorem frameDropped_false (n : String) : frameDropped false n = false := rfl

/-- Joining a single group leaves it unchanged, whatever the separator. -/
theorem joinSep_singleton (sep x : String) : joinSep sep [x] = x := rfl

/-- Unfolding of the renderer's frame loop by one frame. -/
theorem leanFrames_cons (hid : Bool) (cwd : String) (f : CallSite)
    (t : List CallSite) :
    leanFrames hid cwd (f :: t)
      = (if frameDropped hid (normName cwd f) = true then []
         else [normName cwd f ++ "(" ++ lineMark f ++ ")"])
        ++ leanFrames hid cwd t := by
  by_cases hd : frameDropped hid (normName cwd f) = true
  · simp [leanFrames, List.filterMap_cons, hd]
  · simp [leanFrames, List.filterMap_cons, hd]

/-- C6: rendering an Error whose prev is itself an Error with no further
prev yields exactly the outer segment, the chain separator, then the prev
segment; and in the README scenario — the continuation wrapped at test.js
line 5 raising the text unexpected thing at line 7, delivered through the
wrapper to the bound callback — the callback's error renders, with hiding
on and compact meta, to the exact strings the specification gives, both
without and with the metadata object. -/
theorem render_two_segments :
    (∀ (hid : Bool) (pm cwd m m2 : String) (mt mt2 : JSVal)
        (fr fr2 : List CallSite),
      prepareStackTrace hid pm cwd (.err m mt (.err m2 mt2 .undef fr2) fr)
        = prepareStackTrace hid pm cwd (.err m mt .undef fr) ++ " << "
          ++ prepareStackTrace hid pm cwd (.err m2 mt2 .undef fr2)) ∧
    (xApply func6 (.bool true) (wrapSnapshot wrapFrames) [] (.func 1)
        [.null, .obj []]).cbCalls.map
        (fun p => prepareStackTrace true "" "/app/proj" p.2)
      = ["unexpected thing ./test.js(7) << ./test.js(5)"] ∧
    (xApply func6m (.bool true) (wrapSnapshot wrapFrames) [] (.func 1)
        [.null, .obj []]).cbCalls.map
        (fun p => prepareStackTrace true "" "/app/proj" p.2)
      = ["unexpected thing \x7b\"msg\":\"x\",\"xyz\":123\x7d ./test.js(7) << ./test.js(5)"] ∧
    (∀ (hid : Bool) (pm fsp fib cwd m m2 : String) (mt mt2 : JSVal)
        (fr fr2 : List CallSite),
      prepareStackTraceP0 hid pm fsp fib cwd (.err m mt (.err m2 mt2 .undef fr2) fr)
        = prepareStackTraceP0 hid pm fsp fib cwd (.err m mt .undef fr)
          ++ ((if fib = "" then " << " else fib)
          ++ prepareStackTraceP0 hid pm fsp fib cwd (.err m2 mt2 .undef fr2))) := by
  refine ⟨?_, rfl, rfl, ?_⟩
  · intro hid pm cwd m m2 mt mt2 fr fr2
    simp only [prepareStackTrace, isErr, truthy]
    simp [strAppendEmpty, strAppendAssoc]
  · intro hid pm fsp fib cwd m m2 mt mt2 fr fr2
    simp only [prepareStackTraceP0, isErr, truthy]
    simp [strAppendEmpty, strAppendAssoc]

/-- C7 counterexample: with hiding enabled, a frame whose normalized
location is the absolute path of a file outside the working directory —
hence not a project-relative path — is retained, not omitted: the hiding
test only drops locations starting with neither a dot nor a slash. -/
theorem hide_retains_external_counterexample :
    leanFrames true "/proj" [⟨some "/other/x.js", some 3, false, false⟩]
      = ["/other/x.js(3)"] ∧
    ("/other/x.js").data.head? = some '/' := by
  exact ⟨rfl, rfl⟩

/-- C7 as amended: with hiding disabled every frame is rendered; with
hiding enabled exactly those frames are dropped whose normalized location
either starts with neither a dot nor a slash (bare runtime/platform module
names) or ends in the laeh.js file pattern — absolute paths outside the
project are retained. -/
theorem hide_drops_exactly (cwd : String) (s : List CallSite) :
    leanFrames false cwd s
      = s.map (fun f => normName cwd f ++ "(" ++ lineMark f ++ ")") ∧
    leanFrames true cwd s
      = (s.filter (fun f => !(notPathRoot (normName cwd f)
          || laehTailMatch (normName cwd f)))).map
          (fun f => normName cwd f ++ "(" ++ lineMark f ++ ")") := by
  constructor
  · induction s with
    | nil => rfl
    | cons f t ih =>
      rw [leanFrames_cons, ih, frameDropped_false]
      simp
  · induction s with
    | nil => rfl
    | cons f t ih =>
      rw [leanFrames_cons, ih, List.filter_cons]
      by_cases hd : (notPathRoot (normName cwd f)
          || laehTailMatch (normName cwd f)) = true
      · rw [if_pos (show frameDropped true (normName cwd f) = true from hd)]
        simp [hd]
      · rw [if_neg (show ¬ frameDropped true (normName cwd f) = true from hd)]
        simp at hd
        simp [hd]

/-- C8 counterexample: with the frame separator configured as a vertical
bar, two consecutive frames of the same file at lines 1 and 2 are
collapsed with the fixed space-angle-space text between the line numbers,
not with the configured separator: the rendering differs from the one the
claim requires. -/
theorem collapse_sep_counterexample :
    prepareStackTraceP0 false "" "|" "" "/proj" (.err "m" .undef .undef twoSame)
      = "m |./a.js(1 < 2)" ∧
    "m |./a.js(1 < 2)" ≠ "m |./a.js(1|2)" := by
  exact ⟨rfl, by decide⟩

/-- C8 as amended: consecutive frames sharing a normalized location
collapse into one group whose line marks are joined by the fixed
space-angle-space text, whatever frame separator is configured; the
configured separator only joins distinct groups (and precedes the first
group). -/
theorem collapse_fixed_sep (fs : String) (f1 f2 : CallSite) (n : String)
    (h1 : normName "/proj" f1 = n) (h2 : normName "/proj" f2 = n) :
    (p0Group false "/proj" [f1, f2] none []).map (fun g => g ++ ")")
      = [n ++ "(" ++ lineMark f1 ++ " < " ++ lineMark f2 ++ ")"] ∧
    prepareStackTraceP0 false "" fs "" "/proj" (.err "m" .undef .undef [f1, f2])
      = "m " ++ ((if fs = "" then " < " else fs)
        ++ (n ++ "(" ++ lineMark f1 ++ " < " ++ lineMark f2 ++ ")")) := by
  have key : p0Group false "/proj" [f1, f2] none []
      = [n ++ "(" ++ lineMark f1 ++ (" < " ++ lineMark f2)] := by
    simp only [p0Group, h1, h2, frameDropped_false]
    simp [withLastAppended, strAppendAssoc]
  constructor
  · rw [key]
    simp [strAppendAssoc]
  · simp only [prepareStackTraceP0, key]
    simp [truthy, isErr, strAppendEmpty, strAppendAssoc, joinSep_singleton]

/-- Witness for `collapse_fixed_sep` at two frames of the file a.js. -/
theorem collapse_fixed_sep_witness :
    normName "/proj" ⟨some "./a.js", some 1, false, false⟩ = "./a.js" ∧
    (p0Group false "/proj"
        [⟨some "./a.js", some 1, false, false⟩,
         ⟨some "./a.js", some 2, false, false⟩] none []).map (fun g => g ++ ")")
      = ["./a.js" ++ "(" ++ lineMark ⟨some "./a.js", some 1, false, false⟩
          ++ " < " ++ lineMark ⟨some "./a.js", some 2, false, false⟩ ++ ")"] :=
  ⟨rfl,
    (collapse_fixed_sep "|" ⟨some "./a.js", some 1, false, false⟩
      ⟨some "./a.js", some 2, false, false⟩ "./a.js" rfl rfl).1⟩

/-- C9 counterexample: under hiding, a frame whose source file is
unavailable is normalized to the question-mark location, which starts
with neither a dot nor a slash and is therefore dropped entirely — not
rendered with an unknown marker; with hiding off the same frame does
render with the marker. -/
theorem unknown_frame_hidden_counterexample :
    leanFrames true "/p" [⟨none, some 3, false, false⟩] = [] ∧
    leanFrames false "/p" [⟨none, some 3, false, false⟩] = ["?(3)"] := by
  exact ⟨rfl, rfl⟩

/-- C9 as amended: a frame with unknown source location renders with the
question-mark location exactly when hiding is off (hiding drops it); a
frame with a known project-relative location and an unknown line number
renders with the question-mark line mark under either hiding
configuration. -/
theorem unknown_marker_rendering (ln : Option Nat) (ev nv : Bool) (hid : Bool) :
    leanFrames false "/proj" [⟨none, ln, ev, nv⟩]
      = ["?(" ++ lineMark ⟨none, ln, ev, nv⟩ ++ ")"] ∧
    leanFrames true "/proj" [⟨none, ln, ev, nv⟩] = [] ∧
    leanFrames hid "/proj" [⟨some "./a.js", ln, ev, nv⟩]
      = ["./a.js(" ++ lineMark ⟨some "./a.js", ln, ev, nv⟩ ++ ")"] ∧
    lineMark ⟨some "./a.js", none, ev, nv⟩
      = "?" ++ (if ev then "*" else "") ++ (if nv then "+" else "") := by
  exact ⟨rfl, rfl, by cases hid <;> rfl, rfl⟩
